import Mathlib

/-!
# Verification of `cmd/extract_container_image.ts` (containertools)

Shallow embedding of the container-image extraction tool: the Deno std
posix path functions it calls (`parse`, `join`, `normalize`, `dirname`,
`isAbsolute`, `common`), the `LayerEntry` catalog model, the
`UpperLayerDigest` whiteout filter, the layer parser, the manifest
reader and the extraction pass.  All string functions are implemented
structurally over `List Char` so that concrete inputs evaluate inside
the kernel.
-/

/-! ## Posix path model (Deno std `path` semantics) -/

/-- JavaScript `s.split(sep)` for a one-character separator, on char lists.
`[] ↦ [[]]` matches `"".split("/") = [""]`. -/
def chSplitGo (sep : Char) : List Char → List Char → List (List Char)
  | [], acc => [acc.reverse]
  | c :: rest, acc =>
    if c = sep then acc.reverse :: chSplitGo sep rest []
    else chSplitGo sep rest (c :: acc)

/-- Split a string on `'/'`, as JavaScript `s.split("/")`. -/
def splitSlash (s : String) : List String :=
  (chSplitGo '/' s.data []).map String.mk

/-- Join string parts with `'/'`, as JavaScript `parts.join("/")`. -/
def joinSlash : List String → String
  | [] => ""
  | x :: xs => xs.foldl (fun acc s => acc ++ "/" ++ s) x

/-- JavaScript `s.startsWith(p)`. -/
def strStartsWith (s p : String) : Bool :=
  p.data.isPrefixOf s.data

/-- JavaScript `s.endsWith(p)`. -/
def strEndsWith (s p : String) : Bool :=
  p.data.reverse.isPrefixOf s.data.reverse

/-- JavaScript `s.substring(n)` (drop the first `n` characters). -/
def strDrop (s : String) (n : Nat) : String :=
  String.mk (s.data.drop n)

/-- Model of `Path.isAbsolute` (posix): nonempty and starts with `'/'`. -/
def posixIsAbsolute (s : String) : Bool :=
  strStartsWith s "/"

/-- One step of Node's `normalizeString` component stack: resolve a path
component against the stack of already-kept components (stored reversed). -/
def normStep (allowAboveRoot : Bool) (acc : List String) (part : String) : List String :=
  if part = "" ∨ part = "." then acc
  else if part = ".." then
    match acc with
    | p :: rest => if p = ".." then (if allowAboveRoot then ".." :: p :: rest else p :: rest)
                   else rest
    | [] => if allowAboveRoot then [".."] else []
  else part :: acc

/-- Model of `Path.normalize` (posix, Node/Deno std semantics): resolve `.`/`..`,
collapse repeated separators, preserve a trailing separator. -/
def posixNormalize (s : String) : String :=
  if s = "" then "."
  else
    let isAbs := posixIsAbsolute s
    let trailingSep := strEndsWith s "/"
    let parts := ((splitSlash s).foldl (normStep (!isAbs)) []).reverse
    let body := joinSlash parts
    if body = "" then
      if isAbs then "/" else if trailingSep then "./" else "."
    else
      let body1 := if trailingSep then body ++ "/" else body
      if isAbs then "/" ++ body1 else body1

/-- Model of `Path.join(a, b)` (posix): concatenate the nonempty segments with a
separator and normalize; `"."` when both are empty. -/
def posixJoin (a b : String) : String :=
  if a = "" ∧ b = "" then "."
  else posixNormalize (if a = "" then b else if b = "" then a else a ++ "/" ++ b)

/-- Model of `Path.dirname` (posix): scan from the end, skip trailing separators,
skip the base name, and cut just before the separator found (index `0`
excluded from the scan, per Node's algorithm). -/
def posixDirname (s : String) : String :=
  match s.data with
  | [] => "."
  | c :: cs =>
    let hasRoot := c = '/'
    let rev := (c :: cs).reverse
    let rev1 := rev.dropWhile (fun ch => ch = '/')
    let rev2 := rev1.dropWhile (fun ch => ch ≠ '/')
    if rev2.length ≤ 1 then
      if hasRoot then "/" else "."
    else if hasRoot ∧ rev2.length = 2 then "//"
    else String.mk ((c :: cs).take (rev2.length - 1))

/-- Model of `Path.parse("/" ++ p)` restricted to the `dir` and `base` fields
(Node posix `parse`): returns `(dir, base)`.  Trailing separators are
skipped when locating the base name; `dir` falls back to the root for a
top-level name. -/
def posixParseDirBase (s : String) : String × String :=
  match s.data with
  | [] => ("", "")
  | c :: cs =>
    let isAbs := c = '/'
    let rev := (c :: cs).reverse
    let rev1 := rev.dropWhile (fun ch => ch = '/')
    let rev2 := rev1.dropWhile (fun ch => ch ≠ '/')
    if rev1.isEmpty then
      (if isAbs then "/" else "", "")
    else
      let endIdx := rev1.length
      let startPart := if rev2.length ≤ 1 then 0 else rev2.length
      let base :=
        if startPart = 0 then
          String.mk (((c :: cs).take endIdx).drop (if isAbs then 1 else 0))
        else
          String.mk (((c :: cs).take endIdx).drop startPart)
      let dir :=
        if startPart > 0 then String.mk ((c :: cs).take (startPart - 1))
        else if isAbs then "/" else ""
      (dir, base)

/-- Length of the common component prefix of two part lists: the index of
the first mismatch in Deno std `common`'s scan (out-of-range counts as a
mismatch). -/
def commonPrefixLen : List String → List String → Nat
  | a :: as, b :: bs => if a = b then commonPrefixLen as bs + 1 else 0
  | _, _ => 0

/-- Model of `Path.common([a, b])` (Deno std): join the shared leading components
of the two paths; a nonempty result always carries a trailing separator
(documented example: `common(["./deno/std/path/mod.ts",
"./deno/std/fs/mod.ts"]) = "./deno/std/"`). -/
def posixCommon2 (a b : String) : String :=
  let parts := splitSlash a
  let k := commonPrefixLen parts (splitSlash b)
  if k = 0 then ""
  else
    let pre := joinSlash (parts.take k)
    if strEndsWith pre "/" then pre else pre ++ "/"

-- Sanity checks of the path model on the library's documented behavior.
example : posixNormalize "/dest/../destx/f" = "/destx/f" := by decide
example : posixNormalize "/r/a/b/../../../etc/passwd" = "/etc/passwd" := by decide
example : posixJoin "/etc" "conf" = "/etc/conf" := by decide
example : posixDirname "/r/a/b/link" = "/r/a/b" := by decide
example : posixDirname "/a" = "/" := by decide
example : posixParseDirBase "/etc/conf" = ("/etc", "conf") := by decide
example : posixParseDirBase "/a" = ("/", "a") := by decide
example : posixParseDirBase "/var/log/" = ("/var", "log") := by decide
example : posixCommon2 "/a/b/c" "/a/b" = "/a/b/" := by decide
example : posixCommon2 "/" "/var" = "/" := by decide
example : posixCommon2 "/var/log" "/var" = "/var/" := by decide

/-! ## Data model (`extract_container_image.ts`) -/

/-- The three entry kinds a `LayerEntry` can carry
(`"file" | "directory" | "symlink"`). -/
inductive LType where
  | file
  | directory
  | symlink
deriving DecidableEq, BEq, Repr

/-- Tar entry kinds as exposed by the `Untar` reader; `other` stands for
every kind the tool ignores (devices, hard links, fifos, ...). -/
inductive TarKind where
  | file
  | directory
  | symlink
  | other
deriving DecidableEq, BEq, Repr

/-- Fields of the `LayerEntry` class. -/
structure LayerEntry where
  layerName : String
  type : LType
  path : String
  size : Nat
  dir : String
  base : String
  whiteout : String
  isOpaqueWhiteout : Bool
deriving DecidableEq, Repr

/-- The `LayerEntry` constructor: parse `"/" ++ path`, derive `dir` and
`base`, and classify whiteout markers from the base name. -/
def mkLayerEntry (layerName : String) (type : LType) (path : String) (size : Nat) :
    LayerEntry :=
  let p := posixParseDirBase ("/" ++ path)
  let dir := p.1
  let base := p.2
  if base = ".wh..wh..opq" then
    ⟨layerName, type, path, size, dir, base, dir, true⟩
  else if strStartsWith base ".wh." then
    ⟨layerName, type, path, size, dir, base, posixJoin dir (strDrop base 4), false⟩
  else
    ⟨layerName, type, path, size, dir, base, "", false⟩

/-- The `LayerInformation` record. -/
structure LayerInformation where
  name : String
  entries : List LayerEntry
  loaded : Bool
deriving DecidableEq, Repr, Inhabited

/-- Docker saved-manifest record (`ManifestEntry`); `RepoTags` may be
`null`. -/
structure ManifestEntry where
  Config : String
  RepoTags : Option (List String)
  Layers : List String
deriving DecidableEq, Repr

/-- Decoded JSON payload of the `manifest.json` outer entry: either an
array of manifest records, or some non-array value. -/
inductive RawManifest where
  | list (entries : List ManifestEntry)
  | nonList
deriving DecidableEq, Repr

/-- A nested entry of a layer archive as seen through `Untar`: name,
kind, link target, mode (`0` models an absent/zero `fileMode`, which is
falsy in JavaScript), size, and an abstract content identifier. -/
structure NestedEntry where
  fileName : String
  type : TarKind
  linkName : String
  fileMode : Nat
  fileSize : Nat
  content : Nat
deriving DecidableEq, Repr

/-- A top-level entry of the outer saved-image archive; `nested` is the
embedded archive decoded from its byte stream, `payload` its JSON
decoding (consulted only for `manifest.json`). -/
structure OuterEntry where
  fileName : String
  type : TarKind
  nested : List NestedEntry
  payload : RawManifest
deriving DecidableEq, Repr

/-- The error kinds thrown by the tool (each `throw new Error(...)` /
`TypeError` site, plus the directory-escape aborts, which carry the
string interpolated into the message). -/
inductive ToolError where
  | noManifest
  | manifestNotList
  | tagNotFound
  | layersNotFound
  | pathEscape (detail : String)
deriving DecidableEq, Repr

/-! ## Whiteout digest (`UpperLayerDigest`) -/

/-- Boolean string-list membership (JavaScript `Set.has` /
`Array.includes`). -/
def strMem (l : List String) (x : String) : Bool :=
  l.any (fun y => decide (y = x))

/-- JavaScript `Set.add`: append if not already present (insertion order
kept, duplicates ignored). -/
def setAdd (l : List String) (x : String) : List String :=
  if strMem l x then l else l ++ [x]

/-- State of `UpperLayerDigest`: the `#whiteouts` and `#filePaths` sets. -/
structure UpperLayerDigest where
  whiteouts : List String
  filePaths : List String
deriving DecidableEq, Repr

/-- The digest's initial state (both sets empty). -/
def emptyDigest : UpperLayerDigest := ⟨[], []⟩

/-- Model of `UpperLayerDigest.directoryMatch`: the candidate equals a set item,
or `Path.common([candidate, item])` equals the item. -/
def UpperLayerDigest.directoryMatch (candidate : String) (set : List String) : Bool :=
  set.any (fun item =>
    decide (candidate = item) || decide (posixCommon2 candidate item = item))

/-- Model of `UpperLayerDigest.isEntryAllowed`. -/
def UpperLayerDigest.isEntryAllowed (d : UpperLayerDigest) (e : LayerEntry) : Bool :=
  if UpperLayerDigest.directoryMatch e.dir d.whiteouts then false
  else decide (e.type ≠ LType.file) ||
    !(strMem d.filePaths e.path || strMem d.whiteouts ("/" ++ e.path))

/-- Model of `UpperLayerDigest.addEntry`: a whiteout marker adds its target to the
whiteout set; otherwise files and symlinks claim their path. -/
def UpperLayerDigest.addEntry (d : UpperLayerDigest) (e : LayerEntry) : UpperLayerDigest :=
  if e.whiteout ≠ "" then
    { d with whiteouts := setAdd d.whiteouts e.whiteout }
  else if e.type = LType.file ∨ e.type = LType.symlink then
    { d with filePaths := setAdd d.filePaths e.path }
  else d

/-- Model of `UpperLayerDigest.applyDigest`: filter a layer's entries against the
accumulated state, then fold the survivors into the state. -/
def UpperLayerDigest.applyDigest (d : UpperLayerDigest) (info : LayerInformation) :
    UpperLayerDigest × LayerInformation :=
  let filtered := info.entries.filter d.isEntryAllowed
  (filtered.foldl UpperLayerDigest.addEntry d, { info with entries := filtered })

/-- Process a list of layers through the digest in the given order
(callers pass newest-first), returning the final state and the filtered
layers in the same order. -/
def digestFold (d : UpperLayerDigest) : List LayerInformation →
    UpperLayerDigest × List LayerInformation
  | [] => (d, [])
  | l :: rest =>
    let p := UpperLayerDigest.applyDigest d l
    let q := digestFold p.1 rest
    (q.1, p.2 :: q.2)

/-- The orchestration in `extractContainerImage`: apply the digest over
`layerInfo.toReversed()` (newest first), with the catalogs mutated in
place, so the returned list is in the original oldest-first order. -/
def digestAll (layers : List LayerInformation) : List LayerInformation :=
  ((digestFold emptyDigest layers.reverse).2).reverse

/-! ## Layer parser (`parseLayerFiles`) -/

/-- Initial `LayerInformation` for a requested layer name. -/
def initInfo (n : String) : LayerInformation := ⟨n, [], false⟩

/-- The kinds kept by the nested-entry scan; all other tar kinds are
dropped. -/
def tarKindToLType : TarKind → Option LType
  | TarKind.file => some LType.file
  | TarKind.directory => some LType.directory
  | TarKind.symlink => some LType.symlink
  | TarKind.other => none

/-- Catalog entries produced from one layer archive's nested entries:
only file/directory/symlink kinds are kept, in archive order. -/
def keptEntries (layerName : String) : List NestedEntry → List LayerEntry
  | [] => []
  | ne :: rest =>
    match tarKindToLType ne.type with
    | some t => mkLayerEntry layerName t ne.fileName ne.fileSize :: keptEntries layerName rest
    | none => keptEntries layerName rest

/-- Update the last list element with the given name (the object
`infoMap.get(name)` aliases: the map is built by insertion, so a
duplicated name points at its last `LayerInformation`). -/
def updateLastNamed (n : String) (f : LayerInformation → LayerInformation) :
    List LayerInformation → List LayerInformation
  | [] => []
  | x :: xs =>
    if xs.any (fun y => decide (y.name = n)) then x :: updateLastNamed n f xs
    else if x.name = n then f x :: xs
    else x :: xs

/-- One outer entry of the parsing scan: a file-kind entry whose name is
requested feeds its kept nested entries into its catalog and marks it
loaded. -/
def parseStep (names : List String) (acc : List LayerInformation) (e : OuterEntry) :
    List LayerInformation :=
  if e.type = TarKind.file ∧ strMem names e.fileName then
    updateLastNamed e.fileName
      (fun info =>
        { info with
          entries := info.entries ++ keptEntries e.fileName e.nested
          loaded := true })
      acc
  else acc

/-- Model of `parseLayerFiles`: scan the outer archive, then fail if any catalog
was never loaded. -/
def parseLayerFiles (outer : List OuterEntry) (names : List String) :
    Except ToolError (List LayerInformation) :=
  let results := outer.foldl (parseStep names) (names.map initInfo)
  if results.any (fun info => !info.loaded) then Except.error ToolError.layersNotFound
  else Except.ok results

/-! ## Manifest reader (`getArchiveManifest` and tag selection) -/

/-- The outer entry holding the manifest: file kind, named
`manifest.json`. -/
def isManifestFile (e : OuterEntry) : Bool :=
  decide (e.type = TarKind.file ∧ e.fileName = "manifest.json")

/-- Model of `getArchiveManifest`: return the decoded array of the first manifest
entry; `manifestNotList` if its JSON is not an array, `noManifest` when
the scan finds no such entry. -/
def getArchiveManifest (outer : List OuterEntry) : Except ToolError (List ManifestEntry) :=
  match outer.find? isManifestFile with
  | some e =>
    match e.payload with
    | RawManifest.list xs => Except.ok xs
    | RawManifest.nonList => Except.error ToolError.manifestNotList
  | none => Except.error ToolError.noManifest

/-- The well-known default-registry prefix stripped from the image
reference. -/
def dockerRepoLibrary : String := "docker.io/library/"

/-- The `shortImageName` computation in `extractContainerImage`. -/
def stripDefaultRegistry (image : String) : String :=
  if strStartsWith image dockerRepoLibrary then strDrop image dockerRepoLibrary.length
  else image

/-- The record-selection predicate: `RepoTags` non-null and containing
the (stripped) reference. -/
def manifestMatches (shortImageName : String) (e : ManifestEntry) : Bool :=
  match e.RepoTags with
  | none => false
  | some tags => strMem tags shortImageName

/-- Selection of the main manifest record, failing with the
tag-not-found error when no record matches. -/
def selectMainEntry (shortImageName : String) (manifest : List ManifestEntry) :
    Except ToolError ManifestEntry :=
  match manifest.find? (manifestMatches shortImageName) with
  | some m => Except.ok m
  | none => Except.error ToolError.tagNotFound

/-! ## Extraction pass (`extractLayers`) -/

/-- JavaScript `Map.set` on an association list: replace in place or
append. -/
def entryMapSet (m : List (String × LayerEntry)) (k : String) (v : LayerEntry) :
    List (String × LayerEntry) :=
  match m with
  | [] => [(k, v)]
  | (k0, v0) :: rest =>
    if k0 = k then (k0, v) :: rest else (k0, v0) :: entryMapSet rest k v

/-- JavaScript `Map.get`. -/
def entryMapGet (m : List (String × LayerEntry)) (k : String) : Option LayerEntry :=
  match m.find? (fun p => decide (p.1 = k)) with
  | some p => some p.2
  | none => none

/-- The path → survivor-entry map built at the start of `extractLayers`:
every non-whiteout entry of every (digested) layer, later layers
overwriting earlier ones. -/
def buildEntryMap (layerInfo : List LayerInformation) : List (String × LayerEntry) :=
  layerInfo.foldl
    (fun m layer =>
      layer.entries.foldl
        (fun m2 e => if e.whiteout ≠ "" then m2 else entryMapSet m2 e.path e) m)
    []

/-- The filesystem effects the extraction pass performs, in order. -/
inductive WriteAction where
  | mkdir (path : String)
  | chmod (path : String) (mode : Nat)
  | writeFile (path : String) (content : Nat)
  | remove (path : String)
  | symlink (target : String) (path : String)
deriving DecidableEq, Repr

/-- Destination computation of the symlink branch: an absolute link
target is resolved against the destination directory, a relative one
against the output path's parent, then normalized. -/
def symlinkDestination (directory outputPath linkName : String) : String :=
  if posixIsAbsolute linkName then posixNormalize (posixJoin directory linkName)
  else posixNormalize (posixJoin (posixDirname outputPath) linkName)

/-- The inner loop of `extractLayers` over one layer archive's nested
entries: skip unknown kinds and paths absent from the survivor map,
enforce the `startsWith` containment check, and emit the writes of the
matching branch. -/
def extractNested (directory : String) (entryMap : List (String × LayerEntry)) :
    List NestedEntry → Except ToolError (List WriteAction)
  | [] => Except.ok []
  | ne :: rest =>
    if ne.type ≠ TarKind.file ∧ ne.type ≠ TarKind.directory ∧
        ne.type ≠ TarKind.symlink then
      extractNested directory entryMap rest
    else
      match entryMapGet entryMap ne.fileName with
      | none => extractNested directory entryMap rest
      | some layerEntry =>
        let outputPath := posixNormalize (posixJoin directory ne.fileName)
        if !(strStartsWith outputPath directory) then
          Except.error (ToolError.pathEscape ne.fileName)
        else
          let acts : Except ToolError (List WriteAction) :=
            match layerEntry.type with
            | LType.directory =>
              Except.ok ([WriteAction.mkdir outputPath] ++
                (if ne.fileMode ≠ 0 then [WriteAction.chmod outputPath ne.fileMode] else []))
            | LType.file =>
              Except.ok ([WriteAction.writeFile outputPath ne.content] ++
                (if ne.fileMode ≠ 0 then [WriteAction.chmod outputPath ne.fileMode] else []))
            | LType.symlink =>
              let destinationPath := symlinkDestination directory outputPath ne.linkName
              if !(strStartsWith destinationPath directory) then
                Except.error (ToolError.pathEscape destinationPath)
              else
                Except.ok [WriteAction.remove outputPath,
                  WriteAction.symlink destinationPath outputPath]
          match acts with
          | Except.error err => Except.error err
          | Except.ok as =>
            match extractNested directory entryMap rest with
            | Except.error err => Except.error err
            | Except.ok rs => Except.ok (as ++ rs)

/-- The outer loop of `extractLayers`: open every file- or symlink-kind
outer entry whose name is a known layer and process its nested
archive. -/
def extractOuter (directory : String) (names : List String)
    (entryMap : List (String × LayerEntry)) :
    List OuterEntry → Except ToolError (List WriteAction)
  | [] => Except.ok []
  | e :: rest =>
    if (e.type = TarKind.file ∨ e.type = TarKind.symlink) ∧
        strMem names e.fileName then
      match extractNested directory entryMap e.nested with
      | Except.error err => Except.error err
      | Except.ok as =>
        match extractOuter directory names entryMap rest with
        | Except.error err => Except.error err
        | Except.ok rs => Except.ok (as ++ rs)
    else extractOuter directory names entryMap rest

/-- Model of `extractLayers`: normalize the destination, collect the layer names
and the survivor map, then run the outer scan. -/
def extractLayers (outer : List OuterEntry) (directory0 : String)
    (layerInfo : List LayerInformation) : Except ToolError (List WriteAction) :=
  let directory := posixNormalize directory0
  let names := layerInfo.map (fun l => l.name)
  let entryMap := buildEntryMap layerInfo
  extractOuter directory names entryMap outer

deriving instance DecidableEq for Except

/-! ## Pipeline (`extractContainerImage` after the archive is saved) -/

/-- The sequential pipeline of `extractContainerImage` once the image
archive exists: manifest → record selection → layer parsing → digest →
extraction. -/
def runPipeline (image directory : String) (outer : List OuterEntry) :
    Except ToolError (List WriteAction) := do
  let shortImageName := stripDefaultRegistry image
  let manifest ← getArchiveManifest outer
  let mainEntry ← selectMainEntry shortImageName manifest
  let layerInfo ← parseLayerFiles outer mainEntry.Layers
  extractLayers outer directory (digestAll layerInfo)


/-! ## Helper lemmas about the digest state -/

theorem strMem_iff (l : List String) (x : String) : strMem l x = true ↔ x ∈ l := by
  simp [strMem]

theorem strMem_append (l₁ l₂ : List String) (x : String) :
    strMem (l₁ ++ l₂) x = (strMem l₁ x || strMem l₂ x) := by
  simp [strMem]

theorem setAdd_mem_self (l : List String) (x : String) : strMem (setAdd l x) x = true := by
  by_cases h : strMem l x = true
  · simp [setAdd, h]
  · simp only [setAdd]
    rw [if_neg (by simp [h])]
    simp [strMem_append, strMem]

theorem setAdd_mem_mono (l : List String) (x y : String) (h : strMem l y = true) :
    strMem (setAdd l x) y = true := by
  by_cases hx : strMem l x = true
  · simp [setAdd, hx, h]
  · simp only [setAdd]
    rw [if_neg (by simp [hx])]
    simp [strMem_append, h]

theorem addEntry_whiteouts_mono (d : UpperLayerDigest) (e : LayerEntry) (w : String)
    (h : strMem d.whiteouts w = true) :
    strMem (d.addEntry e).whiteouts w = true := by
  unfold UpperLayerDigest.addEntry
  by_cases hw : e.whiteout ≠ ""
  · simp [hw, setAdd_mem_mono _ _ _ h]
  · by_cases ht : e.type = LType.file ∨ e.type = LType.symlink <;> simp [hw, ht, h]

theorem foldl_addEntry_whiteouts_mono (es : List LayerEntry) :
    ∀ (d : UpperLayerDigest) (w : String), strMem d.whiteouts w = true →
      strMem ((es.foldl UpperLayerDigest.addEntry d).whiteouts) w = true := by
  induction es with
  | nil => intro d w h; simpa using h
  | cons e rest ih =>
    intro d w h
    exact ih _ _ (addEntry_whiteouts_mono d e w h)

theorem addEntry_marker_mem (d : UpperLayerDigest) (m : LayerEntry) (hm : m.whiteout ≠ "") :
    strMem (d.addEntry m).whiteouts m.whiteout = true := by
  unfold UpperLayerDigest.addEntry
  simp [hm, setAdd_mem_self]

theorem foldl_addEntry_marker_mem (es : List LayerEntry) :
    ∀ (d : UpperLayerDigest) (m : LayerEntry), m ∈ es → m.whiteout ≠ "" →
      strMem ((es.foldl UpperLayerDigest.addEntry d).whiteouts) m.whiteout = true := by
  induction es with
  | nil => intro d m hm; exact absurd hm (List.not_mem_nil m)
  | cons e rest ih =>
    intro d m hm hw
    rcases List.mem_cons.mp hm with h | h
    · subst h
      exact foldl_addEntry_whiteouts_mono rest _ _ (addEntry_marker_mem d m hw)
    · exact ih _ _ h hw

theorem directoryMatch_of_mem (c : String) (s : List String) (h : strMem s c = true) :
    UpperLayerDigest.directoryMatch c s = true := by
  rw [strMem_iff] at h
  unfold UpperLayerDigest.directoryMatch
  rw [List.any_eq_true]
  exact ⟨c, h, by simp⟩

theorem isEntryAllowed_false_of_file_target (d : UpperLayerDigest) (e : LayerEntry)
    (hf : e.type = LType.file) (hw : strMem d.whiteouts ("/" ++ e.path) = true) :
    d.isEntryAllowed e = false := by
  unfold UpperLayerDigest.isEntryAllowed
  by_cases hd : UpperLayerDigest.directoryMatch e.dir d.whiteouts = true
  · simp [hd]
  · simp [hd, hf, hw]

theorem isEntryAllowed_false_of_dir_mem (d : UpperLayerDigest) (e : LayerEntry)
    (hd : strMem d.whiteouts e.dir = true) :
    d.isEntryAllowed e = false := by
  unfold UpperLayerDigest.isEntryAllowed
  simp [directoryMatch_of_mem _ _ hd]

theorem isEntryAllowed_nonfile (d : UpperLayerDigest) (e : LayerEntry)
    (ht : e.type ≠ LType.file) :
    d.isEntryAllowed e = !(UpperLayerDigest.directoryMatch e.dir d.whiteouts) := by
  unfold UpperLayerDigest.isEntryAllowed
  by_cases hd : UpperLayerDigest.directoryMatch e.dir d.whiteouts <;> simp [hd, ht]

/-! ## Claim C6 -/

/-- C6: in `isEntryAllowed`, only File-kind entries are subject to the
claimed-paths / direct-exact-whiteout rejection rule; Directory- and
Symlink-kind entries can be rejected only by the directory-occlusion
check, and in particular a symlink at a previously claimed file path is
accepted whenever its parent directory is not occluded. -/
theorem c6_isAllowed_kind_asymmetry (d : UpperLayerDigest) (e : LayerEntry) :
    (e.type ≠ LType.file →
      d.isEntryAllowed e = !(UpperLayerDigest.directoryMatch e.dir d.whiteouts)) ∧
    (e.type = LType.file →
      d.isEntryAllowed e =
        (!(UpperLayerDigest.directoryMatch e.dir d.whiteouts) &&
          !(strMem d.filePaths e.path || strMem d.whiteouts ("/" ++ e.path)))) ∧
    (e.type = LType.symlink → strMem d.filePaths e.path = true →
      UpperLayerDigest.directoryMatch e.dir d.whiteouts = false →
      d.isEntryAllowed e = true) := by
  unfold UpperLayerDigest.isEntryAllowed
  by_cases hd : UpperLayerDigest.directoryMatch e.dir d.whiteouts
  · refine ⟨fun _ => by simp [hd], fun _ => by simp [hd], fun _ _ hcontra => ?_⟩
    rw [hd] at hcontra
    exact absurd hcontra (by simp)
  · refine ⟨fun h => by simp [hd, h], fun h => by simp [hd, h], fun h hmem hdm => ?_⟩
    simp [hd, h]

/-- Closed instance of `c6_isAllowed_kind_asymmetry`: a symlink entry at
an already-claimed file path is still allowed when no directory whiteout
occludes it. -/
theorem c6_isAllowed_kind_asymmetry_witness :
    ((mkLayerEntry "l1" LType.symlink "etc/conf" 0).type = LType.symlink) ∧
    (strMem ["etc/conf"] (mkLayerEntry "l1" LType.symlink "etc/conf" 0).path = true) ∧
    (UpperLayerDigest.directoryMatch (mkLayerEntry "l1" LType.symlink "etc/conf" 0).dir
      (UpperLayerDigest.mk [] ["etc/conf"]).whiteouts = false) ∧
    (UpperLayerDigest.isEntryAllowed (UpperLayerDigest.mk [] ["etc/conf"])
      (mkLayerEntry "l1" LType.symlink "etc/conf" 0) = true) :=
  ⟨by decide, by decide, by decide,
    (c6_isAllowed_kind_asymmetry (UpperLayerDigest.mk [] ["etc/conf"])
        (mkLayerEntry "l1" LType.symlink "etc/conf" 0)).2.2
      (by decide) (by decide) (by decide)⟩

/-! ## Claim C3 -/

/-- Older layer of the C3 counterexample: a file strictly below the
whiteout target path. -/
def c3Lower : LayerInformation :=
  ⟨"l1", [mkLayerEntry "l1" LType.file "etc/conf/sub" 0], true⟩

/-- Newer layer of the C3 counterexample: a per-path whiteout marker for
`etc/conf`. -/
def c3Upper : LayerInformation :=
  ⟨"l2", [mkLayerEntry "l2" LType.file "etc/.wh.conf" 0], true⟩

/-- C3 refutation: the non-opaque marker `etc/.wh.conf` stores its
target in the whiteout (occluded-directories) set, not in the
claimed-file-paths set, and the older entry `etc/conf/sub` — whose path
is different from the target — is nevertheless rejected by that marker.
So the target is not tracked as an exact deleted path only, and an older
entry can be rejected without its path equalling the target. -/
theorem c3_counterexample :
    ((mkLayerEntry "l2" LType.file "etc/.wh.conf" 0).isOpaqueWhiteout = false) ∧
    ((mkLayerEntry "l2" LType.file "etc/.wh.conf" 0).whiteout = "/etc/conf") ∧
    (decide (("/" ++ "etc/conf/sub" : String) = "/etc/conf") = false) ∧
    ((digestAll [c3Lower, c3Upper]).map (fun i => i.entries.map (fun e => e.path)) =
      [[], ["etc/.wh.conf"]]) ∧
    ((digestFold emptyDigest [c3Upper]).1.whiteouts = ["/etc/conf"]) ∧
    ((digestFold emptyDigest [c3Upper]).1.filePaths = []) := by decide

/-- C3 amended: a surviving non-opaque whiteout's target joins the same
whiteout set as opaque targets (the claimed-file-paths set is untouched);
afterwards an older File-kind entry whose slash-prefixed path equals the
target is rejected, any older entry whose parent directory equals the
target is rejected, and non-File entries are rejected exactly by the
directory-occlusion check. -/
theorem c3_amended (d : UpperLayerDigest) (m e : LayerEntry) (hm : m.whiteout ≠ "") :
    ((d.addEntry m).whiteouts = setAdd d.whiteouts m.whiteout) ∧
    ((d.addEntry m).filePaths = d.filePaths) ∧
    (e.type = LType.file → ("/" ++ e.path) = m.whiteout →
      (d.addEntry m).isEntryAllowed e = false) ∧
    (e.dir = m.whiteout → (d.addEntry m).isEntryAllowed e = false) ∧
    (e.type ≠ LType.file →
      (d.addEntry m).isEntryAllowed e =
        !(UpperLayerDigest.directoryMatch e.dir (d.addEntry m).whiteouts)) := by
  have hadd : d.addEntry m = { d with whiteouts := setAdd d.whiteouts m.whiteout } := by
    unfold UpperLayerDigest.addEntry
    simp [hm]
  refine ⟨by rw [hadd], by rw [hadd], ?_, ?_, ?_⟩
  · intro hf hp
    refine isEntryAllowed_false_of_file_target _ _ hf ?_
    rw [hadd, hp]
    exact setAdd_mem_self _ _
  · intro hdir
    refine isEntryAllowed_false_of_dir_mem _ _ ?_
    rw [hadd, hdir]
    exact setAdd_mem_self _ _
  · intro ht
    exact isEntryAllowed_nonfile _ _ ht

/-- Closed instance of `c3_amended` at the counterexample's marker: the
target lands in the whiteout set and the older file at exactly the
target path is rejected. -/
theorem c3_amended_witness :
    ((mkLayerEntry "l2" LType.file "etc/.wh.conf" 0).whiteout ≠ "") ∧
    ((UpperLayerDigest.addEntry emptyDigest (mkLayerEntry "l2" LType.file "etc/.wh.conf" 0)).whiteouts =
      setAdd emptyDigest.whiteouts (mkLayerEntry "l2" LType.file "etc/.wh.conf" 0).whiteout) ∧
    ((UpperLayerDigest.addEntry emptyDigest (mkLayerEntry "l2" LType.file "etc/.wh.conf" 0)).isEntryAllowed
      (mkLayerEntry "l1" LType.file "etc/conf" 0) = false) :=
  ⟨by decide,
    ((c3_amended emptyDigest (mkLayerEntry "l2" LType.file "etc/.wh.conf" 0)
        (mkLayerEntry "l1" LType.file "etc/conf" 0) (by decide)).1),
    ((c3_amended emptyDigest (mkLayerEntry "l2" LType.file "etc/.wh.conf" 0)
        (mkLayerEntry "l1" LType.file "etc/conf" 0) (by decide)).2.2.1 (by decide) (by decide))⟩

/-! ## Claim C2 -/

/-- Older layer for C2: the directory `var`, its subdirectory `var/log`,
and a file inside the subdirectory. -/
def c2Lower : LayerInformation :=
  ⟨"l1",
   [mkLayerEntry "l1" LType.directory "var" 0,
    mkLayerEntry "l1" LType.directory "var/log" 0,
    mkLayerEntry "l1" LType.file "var/log/a.txt" 0], true⟩

/-- Newer layer for C2: an opaque whiteout under `var`. -/
def c2Upper : LayerInformation :=
  ⟨"l2", [mkLayerEntry "l2" LType.file "var/.wh..wh..opq" 0], true⟩

/-- C2 evaluation at the failing input: the opaque whiteout under `var`
does reject `var/log` (parent exactly `/var`) and lets the entry `var`
itself survive, but the file `var/log/a.txt` — whose parent `/var/log`
is a strict descendant of `/var` — also survives, because
`Path.common(["/var/log", "/var"])` returns `"/var/"` with a trailing
separator and never equals the stored target `"/var"`. -/
theorem c2_code_eval :
    ((mkLayerEntry "l2" LType.file "var/.wh..wh..opq" 0).whiteout = "/var") ∧
    ((mkLayerEntry "l2" LType.file "var/.wh..wh..opq" 0).isOpaqueWhiteout = true) ∧
    ((mkLayerEntry "l1" LType.file "var/log/a.txt" 0).dir = "/var/log") ∧
    (posixCommon2 "/var/log" "/var" = "/var/") ∧
    (UpperLayerDigest.directoryMatch "/var/log" ["/var"] = false) ∧
    ((digestAll [c2Lower, c2Upper]).map (fun i => i.entries.map (fun e => e.path)) =
      [["var", "var/log/a.txt"], ["var/.wh..wh..opq"]]) := by decide

/-! ## Claim C1 -/

/-- Older layer for C1: a file at path `p`. -/
def c1Lower : LayerInformation :=
  ⟨"l1.tar", [mkLayerEntry "l1.tar" LType.file "p" 0], true⟩

/-- Newer layer for C1: a file at the same path `p` with different
content. -/
def c1Upper : LayerInformation :=
  ⟨"l2.tar", [mkLayerEntry "l2.tar" LType.file "p" 0], true⟩

/-- Outer archive for C1, newer layer archive first; content id `2` is
the newer layer's bytes at `p`, content id `1` the older layer's. -/
def c1Outer : List OuterEntry :=
  [⟨"l2.tar", TarKind.file, [⟨"p", TarKind.file, "", 0, 0, 2⟩], RawManifest.nonList⟩,
   ⟨"l1.tar", TarKind.file, [⟨"p", TarKind.file, "", 0, 0, 1⟩], RawManifest.nonList⟩]

/-- C1 evaluation at the failing input: after the digest the survivor
map at `p` is indeed the newer layer's catalog entry, but the extraction
pass matches nested entries by path only (never comparing the survivor's
`layerName` with the archive being read), so it also writes the older
layer's bytes (content id `1`) at `p`; with this outer archive order the
last write at `p` carries the older layer's content. -/
theorem c1_code_eval :
    (entryMapGet (buildEntryMap (digestAll [c1Lower, c1Upper])) "p" =
      some (mkLayerEntry "l2.tar" LType.file "p" 0)) ∧
    ((mkLayerEntry "l2.tar" LType.file "p" 0).layerName = "l2.tar") ∧
    (extractLayers c1Outer "/d" (digestAll [c1Lower, c1Upper]) =
      Except.ok [WriteAction.writeFile "/d/p" 2, WriteAction.writeFile "/d/p" 1]) := by decide

/-! ## Claim C4 -/

/-- Single layer for C4: one file whose archive path climbs out of the
destination via `..` into a sibling directory whose name extends the
destination root as a string. -/
def c4Layer : LayerInformation :=
  ⟨"l1.tar", [mkLayerEntry "l1.tar" LType.file "../destx/f" 0], true⟩

/-- Outer archive for C4. -/
def c4Outer : List OuterEntry :=
  [⟨"l1.tar", TarKind.file, [⟨"../destx/f", TarKind.file, "", 0, 0, 7⟩],
    RawManifest.nonList⟩]

/-- C4 evaluation at the failing input: the output path for
`../destx/f` under destination `/dest` normalizes to `/destx/f`, which
is not under `/dest` (it is neither `/dest` itself nor an extension of
`/dest/`), yet the `startsWith`-based containment check accepts it and
the extractor writes the file there instead of failing with the
path-escape error. -/
theorem c4_code_eval :
    (posixNormalize (posixJoin "/dest" "../destx/f") = "/destx/f") ∧
    (("/destx/f" : String) ≠ "/dest") ∧
    (strStartsWith "/destx/f" ("/dest" ++ "/") = false) ∧
    (strStartsWith "/destx/f" "/dest" = true) ∧
    (extractLayers c4Outer "/dest" (digestAll [c4Layer]) =
      Except.ok [WriteAction.writeFile "/destx/f" 7]) := by decide

/-! ## Claim C5 -/

/-- Specification-side symlink target resolution, written from the
spec's words: if the link target is absolute, resolve it relative to the
destination root; otherwise resolve it relative to the output path's
parent directory; then normalize. -/
def specSymlinkResolution (destinationRoot outputPath linkTarget : String) : String :=
  if posixIsAbsolute linkTarget then
    posixNormalize (posixJoin destinationRoot linkTarget)
  else
    posixNormalize (posixJoin (posixDirname outputPath) linkTarget)

/-- Single layer for C5: a symlink at `a/b/link`. -/
def c5Layer : LayerInformation :=
  ⟨"l1.tar", [mkLayerEntry "l1.tar" LType.symlink "a/b/link" 0], true⟩

/-- C5 outer archive with link target `../etc/passwd` (stays under the
root). -/
def c5OuterIn : List OuterEntry :=
  [⟨"l1.tar", TarKind.file,
    [⟨"a/b/link", TarKind.symlink, "../etc/passwd", 0, 0, 0⟩], RawManifest.nonList⟩]

/-- C5 outer archive with link target `../../../etc/passwd` (escapes
the root). -/
def c5OuterOut : List OuterEntry :=
  [⟨"l1.tar", TarKind.file,
    [⟨"a/b/link", TarKind.symlink, "../../../etc/passwd", 0, 0, 0⟩], RawManifest.nonList⟩]

/-- C5: the extractor's symlink-target computation agrees with the
spec's resolution rule on every input, and on the two concrete examples:
a relative target `../etc/passwd` at output path `/root/a/b/link`
resolves to `/root/a/etc/passwd` and the link is written, while target
`../../../etc/passwd` resolves to `/etc/passwd` and extraction fails
with the path-escape error carrying that resolved target. -/
theorem c5_symlink_resolution :
    (∀ destinationRoot outputPath linkTarget : String,
      symlinkDestination destinationRoot outputPath linkTarget =
        specSymlinkResolution destinationRoot outputPath linkTarget) ∧
    (symlinkDestination "/root" "/root/a/b/link" "../etc/passwd" = "/root/a/etc/passwd") ∧
    (extractLayers c5OuterIn "/root" (digestAll [c5Layer]) =
      Except.ok [WriteAction.remove "/root/a/b/link",
        WriteAction.symlink "/root/a/etc/passwd" "/root/a/b/link"]) ∧
    (symlinkDestination "/root" "/root/a/b/link" "../../../etc/passwd" = "/etc/passwd") ∧
    (extractLayers c5OuterOut "/root" (digestAll [c5Layer]) =
      Except.error (ToolError.pathEscape "/etc/passwd")) :=
  ⟨fun _ _ _ => rfl, by decide, by decide, by decide, by decide⟩

/-! ## Claim C9 -/

/-- Oldest layer for C9: a symlink at `etc/conf`. -/
def c9Oldest : LayerInformation :=
  ⟨"l1", [mkLayerEntry "l1" LType.symlink "etc/conf" 0], true⟩

/-- Middle layer for C9: a per-path whiteout marker for `etc/conf`. -/
def c9Middle : LayerInformation :=
  ⟨"l2", [mkLayerEntry "l2" LType.file "etc/.wh.conf" 0], true⟩

/-- Newest layer for C9: a file re-added at `etc/conf`. -/
def c9Newest : LayerInformation :=
  ⟨"l3", [mkLayerEntry "l3" LType.file "etc/conf" 0], true⟩

/-- C9 refutation: the marker `etc/.wh.conf` (target `/etc/conf`)
survives digest filtering, yet entries with exactly the target's path
remain in the final survivor set: the newest layer's re-added file (its
layer is processed before the marker's) and the oldest layer's symlink
(symlinks are exempt from the exact-path rejection).  The
extractor-facing map still resolves the path. -/
theorem c9_counterexample :
    ((mkLayerEntry "l2" LType.file "etc/.wh.conf" 0).whiteout = "/" ++ "etc/conf") ∧
    ((digestAll [c9Oldest, c9Middle, c9Newest]).map
        (fun i => i.entries.map (fun e => e.path)) =
      [["etc/conf"], ["etc/.wh.conf"], ["etc/conf"]]) ∧
    (entryMapGet (buildEntryMap (digestAll [c9Oldest, c9Middle, c9Newest])) "etc/conf" =
      some (mkLayerEntry "l3" LType.file "etc/conf" 0)) := by decide

/-- Once a whiteout target is in the digest state, no File-kind entry at
exactly that (slash-prefixed) path survives any later-processed (older)
layer. -/
theorem survivor_file_not_target (w : String) (ls : List LayerInformation) :
    ∀ (d : UpperLayerDigest) (j : Nat) (e : LayerEntry),
      strMem d.whiteouts w = true →
      e ∈ ((digestFold d ls).2.getD j ⟨"", [], false⟩).entries →
      e.type = LType.file →
      ("/" ++ e.path) ≠ w := by
  induction ls with
  | nil =>
    intro d j e hw he hf
    simp [digestFold] at he
  | cons l rest ih =>
    intro d j e hw he hf
    cases j with
    | zero =>
      intro heq
      have hmem : e ∈ l.entries.filter d.isEntryAllowed := by
        simpa [digestFold, UpperLayerDigest.applyDigest] using he
      have hallow : d.isEntryAllowed e = true := (List.mem_filter.mp hmem).2
      have hforbid : d.isEntryAllowed e = false :=
        isEntryAllowed_false_of_file_target d e hf (heq ▸ hw)
      rw [hforbid] at hallow
      exact Bool.false_ne_true hallow
    | succ j =>
      refine ih ((UpperLayerDigest.applyDigest d l).1) j e ?_ ?_ hf
      · have : strMem ((l.entries.filter d.isEntryAllowed).foldl
            UpperLayerDigest.addEntry d).whiteouts w = true :=
          foldl_addEntry_whiteouts_mono _ _ _ hw
        simpa [UpperLayerDigest.applyDigest] using this
      · simpa [digestFold] using he

/-- C9 amended: in the digest's processing order (newest layer first,
position `i` newer than position `j`), if a whiteout marker survives
filtering at position `i`, then no File-kind entry surviving at any
strictly older position `j` has the marker's target as its
slash-prefixed path.  (Entries of newer layers, and Directory- or
Symlink-kind entries of older layers, may still carry the target path,
as the counterexample shows.) -/
theorem c9_amended (ls : List LayerInformation) :
    ∀ (d : UpperLayerDigest) (i j : Nat) (m e : LayerEntry),
      i < j →
      m ∈ ((digestFold d ls).2.getD i ⟨"", [], false⟩).entries →
      m.whiteout ≠ "" →
      e ∈ ((digestFold d ls).2.getD j ⟨"", [], false⟩).entries →
      e.type = LType.file →
      ("/" ++ e.path) ≠ m.whiteout := by
  induction ls with
  | nil =>
    intro d i j m e hij hm hmw he hf
    simp [digestFold] at hm
  | cons l rest ih =>
    intro d i j m e hij hm hmw he hf
    cases i with
    | zero =>
      cases j with
      | zero => exact absurd hij (lt_irrefl 0)
      | succ j =>
        have hm0 : m ∈ l.entries.filter d.isEntryAllowed := by
          simpa [digestFold, UpperLayerDigest.applyDigest] using hm
        have hwmem : strMem ((UpperLayerDigest.applyDigest d l).1).whiteouts
            m.whiteout = true := by
          have := foldl_addEntry_marker_mem (l.entries.filter d.isEntryAllowed) d m hm0 hmw
          simpa [UpperLayerDigest.applyDigest] using this
        have he0 : e ∈ ((digestFold (UpperLayerDigest.applyDigest d l).1 rest).2.getD j
            ⟨"", [], false⟩).entries := by
          simpa [digestFold] using he
        exact survivor_file_not_target m.whiteout rest _ j e hwmem he0 hf
    | succ i =>
      cases j with
      | zero => exact absurd hij (by omega)
      | succ j =>
        refine ih ((UpperLayerDigest.applyDigest d l).1) i j m e
          (Nat.lt_of_succ_lt_succ hij) ?_ hmw ?_ hf
        · simpa [digestFold] using hm
        · simpa [digestFold] using he

/-- Closed instance of `c9_amended`: a surviving marker with target
`/etc/conf` and a surviving older file at `other` — the theorem applies
and the older file's path differs from the target. -/
theorem c9_amended_witness :
    (0 < 1) ∧
    (mkLayerEntry "l2" LType.file "etc/.wh.conf" 0 ∈
      ((digestFold emptyDigest
        [⟨"l2", [mkLayerEntry "l2" LType.file "etc/.wh.conf" 0], true⟩,
         ⟨"l1", [mkLayerEntry "l1" LType.file "other" 0], true⟩]).2.getD 0
        ⟨"", [], false⟩).entries) ∧
    (mkLayerEntry "l1" LType.file "other" 0 ∈
      ((digestFold emptyDigest
        [⟨"l2", [mkLayerEntry "l2" LType.file "etc/.wh.conf" 0], true⟩,
         ⟨"l1", [mkLayerEntry "l1" LType.file "other" 0], true⟩]).2.getD 1
        ⟨"", [], false⟩).entries) ∧
    (("/" ++ (mkLayerEntry "l1" LType.file "other" 0).path) ≠
      (mkLayerEntry "l2" LType.file "etc/.wh.conf" 0).whiteout) :=
  ⟨by decide, by decide, by decide,
    c9_amended
      [⟨"l2", [mkLayerEntry "l2" LType.file "etc/.wh.conf" 0], true⟩,
       ⟨"l1", [mkLayerEntry "l1" LType.file "other" 0], true⟩]
      emptyDigest 0 1
      (mkLayerEntry "l2" LType.file "etc/.wh.conf" 0)
      (mkLayerEntry "l1" LType.file "other" 0)
      (by decide) (by decide) (by decide) (by decide) (by decide)⟩

/-! ## Claim C7 -/

theorem strStartsWith_append (s p : String) (h : strStartsWith s p = true) :
    p ++ strDrop s p.length = s := by
  unfold strStartsWith at h
  rw [List.isPrefixOf_iff_prefix] at h
  obtain ⟨t, ht⟩ := h
  apply String.ext
  show p.data ++ (strDrop s p.length).data = s.data
  unfold strDrop
  show p.data ++ s.data.drop p.length = s.data
  have hlen : p.length = p.data.length := rfl
  rw [hlen, ← ht, List.drop_left]

/-- C7: manifest processing fails with the no-manifest error when no
file-kind `manifest.json` entry exists, with the not-an-array error when
the first such entry decodes to a non-array value, and succeeds with the
decoded list otherwise; record selection fails with the tag-not-found
error exactly when no record's `RepoTags` contains the target reference
after stripping the `docker.io/library/` prefix, and the stripping
really removes that prefix. -/
theorem c7_manifest_reader (outer : List OuterEntry) (image : String)
    (manifest : List ManifestEntry) :
    ((∀ e ∈ outer, ¬(e.type = TarKind.file ∧ e.fileName = "manifest.json")) →
      getArchiveManifest outer = Except.error ToolError.noManifest) ∧
    (∀ e, outer.find? isManifestFile = some e → e.payload = RawManifest.nonList →
      getArchiveManifest outer = Except.error ToolError.manifestNotList) ∧
    (∀ e xs, outer.find? isManifestFile = some e → e.payload = RawManifest.list xs →
      getArchiveManifest outer = Except.ok xs) ∧
    ((∀ r ∈ manifest, ∀ tags, r.RepoTags = some tags →
        stripDefaultRegistry image ∉ tags) →
      selectMainEntry (stripDefaultRegistry image) manifest =
        Except.error ToolError.tagNotFound) ∧
    (∀ r, manifest.find? (manifestMatches (stripDefaultRegistry image)) = some r →
      selectMainEntry (stripDefaultRegistry image) manifest = Except.ok r) ∧
    (strStartsWith image dockerRepoLibrary = true →
      dockerRepoLibrary ++ stripDefaultRegistry image = image) := by
  refine ⟨?_, ?_, ?_, ?_, ?_, ?_⟩
  · intro h
    have hnone : outer.find? isManifestFile = none := by
      rw [List.find?_eq_none]
      intro e he
      simp only [isManifestFile, decide_eq_true_eq]
      exact h e he
    unfold getArchiveManifest
    rw [hnone]
  · intro e hfind hpayload
    simp [getArchiveManifest, hfind, hpayload]
  · intro e xs hfind hpayload
    simp [getArchiveManifest, hfind, hpayload]
  · intro h
    have hnone : manifest.find? (manifestMatches (stripDefaultRegistry image)) = none := by
      rw [List.find?_eq_none]
      intro r hr
      unfold manifestMatches
      cases hrt : r.RepoTags with
      | none => simp
      | some tags =>
        simp only [Bool.not_eq_true]
        rw [← Bool.not_eq_true]
        intro hmem
        exact h r hr tags hrt ((strMem_iff _ _).mp hmem)
    unfold selectMainEntry
    rw [hnone]
  · intro r hr
    unfold selectMainEntry
    rw [hr]
  · intro h
    unfold stripDefaultRegistry
    rw [if_pos h]
    exact strStartsWith_append image dockerRepoLibrary h

/-- Closed instance of `c7_manifest_reader`: an archive without any
`manifest.json` entry yields the no-manifest error. -/
theorem c7_manifest_reader_witness :
    getArchiveManifest [] = Except.error ToolError.noManifest :=
  (c7_manifest_reader [] "img" []).1 (by simp)

/-! ## Claim C8 -/

/-- Whether the outer archive scan observes a file-kind entry with the
given layer name. -/
def observesLayer (outer : List OuterEntry) (n : String) : Bool :=
  outer.any (fun e => decide (e.type = TarKind.file ∧ e.fileName = n))

/-- Catalog entries contributed to layer name `n` by the whole scan, in
order. -/
def collectEntries (n : String) : List OuterEntry → List LayerEntry
  | [] => []
  | e :: rest =>
    if e.type = TarKind.file ∧ e.fileName = n then
      keptEntries e.fileName e.nested ++ collectEntries n rest
    else collectEntries n rest

/-- Per-name view of the scan: how one catalog evolves over the outer
entries. -/
def parseOneName (n : String) : LayerInformation → List OuterEntry → LayerInformation
  | info, [] => info
  | info, e :: rest =>
    parseOneName n
      (if e.type = TarKind.file ∧ e.fileName = n then
        { info with
          entries := info.entries ++ keptEntries e.fileName e.nested
          loaded := true }
      else info) rest

theorem tarKindToLType_some (k : TarKind) (t : LType) (h : tarKindToLType k = some t) :
    k = TarKind.file ∨ k = TarKind.directory ∨ k = TarKind.symlink := by
  cases k <;> simp [tarKindToLType] at h ⊢

theorem keptEntries_mem (layerName : String) :
    ∀ (nested : List NestedEntry) (le : LayerEntry), le ∈ keptEntries layerName nested →
      ∃ ne ∈ nested, ∃ t, tarKindToLType ne.type = some t ∧
        le = mkLayerEntry layerName t ne.fileName ne.fileSize := by
  intro nested
  induction nested with
  | nil => intro le h; simp [keptEntries] at h
  | cons ne rest ih =>
    intro le h
    unfold keptEntries at h
    split at h
    · rename_i t ht
      rcases List.mem_cons.mp h with h1 | h1
      · exact ⟨ne, List.mem_cons_self _ _, t, ht, h1⟩
      · obtain ⟨ne2, hne2, t2, ht2, hle⟩ := ih le h1
        exact ⟨ne2, List.mem_cons_of_mem _ hne2, t2, ht2, hle⟩
    · obtain ⟨ne2, hne2, t2, ht2, hle⟩ := ih le h
      exact ⟨ne2, List.mem_cons_of_mem _ hne2, t2, ht2, hle⟩

theorem collectEntries_mem (n : String) :
    ∀ (outer : List OuterEntry) (le : LayerEntry), le ∈ collectEntries n outer →
      ∃ e ∈ outer, e.type = TarKind.file ∧ e.fileName = n ∧
        ∃ ne ∈ e.nested, ∃ t, tarKindToLType ne.type = some t ∧
          le = mkLayerEntry e.fileName t ne.fileName ne.fileSize := by
  intro outer
  induction outer with
  | nil => intro le h; simp [collectEntries] at h
  | cons e rest ih =>
    intro le h
    unfold collectEntries at h
    by_cases hc : e.type = TarKind.file ∧ e.fileName = n
    · rw [if_pos hc] at h
      rcases List.mem_append.mp h with h1 | h1
      · obtain ⟨ne, hne, t, ht, hle⟩ := keptEntries_mem e.fileName e.nested le h1
        exact ⟨e, List.mem_cons_self _ _, hc.1, hc.2, ne, hne, t, ht, hle⟩
      · obtain ⟨e2, he2, h1x, h2x, hrest⟩ := ih le h1
        exact ⟨e2, List.mem_cons_of_mem _ he2, h1x, h2x, hrest⟩
    · rw [if_neg hc] at h
      obtain ⟨e2, he2, h1x, h2x, hrest⟩ := ih le h
      exact ⟨e2, List.mem_cons_of_mem _ he2, h1x, h2x, hrest⟩

theorem updateLastNamed_map (f : String → LayerInformation)
    (hf : ∀ n, (f n).name = n) (g : LayerInformation → LayerInformation) (k : String) :
    ∀ (names : List String), names.Nodup →
      updateLastNamed k g (names.map f) =
        names.map (fun n => if n = k then g (f n) else f n) := by
  intro names
  induction names with
  | nil => intro _; rfl
  | cons n0 rest ih =>
    intro hnd
    rw [List.map_cons, List.map_cons]
    unfold updateLastNamed
    by_cases hk : k ∈ rest
    · have hany : (rest.map f).any (fun y => decide (y.name = k)) = true := by
        rw [List.any_eq_true]
        exact ⟨f k, List.mem_map_of_mem f hk, by simp [hf k]⟩
      rw [if_pos hany]
      have hn0 : n0 ≠ k := by
        intro heq
        exact (List.nodup_cons.mp hnd).1 (heq ▸ hk)
      rw [if_neg hn0, ih (List.nodup_cons.mp hnd).2]
    · have hany : ¬((rest.map f).any (fun y => decide (y.name = k)) = true) := by
        rw [List.any_eq_true]
        rintro ⟨y, hy, hyk⟩
        obtain ⟨m, hm, rfl⟩ := List.mem_map.mp hy
        rw [hf m] at hyk
        exact hk ((of_decide_eq_true hyk) ▸ hm)
      rw [if_neg hany]
      by_cases h0 : n0 = k
      · rw [if_pos (by rw [hf n0]; exact h0), if_pos h0]
        congr 1
        symm
        apply List.map_congr_left
        intro m hm
        rw [if_neg (show ¬(m = k) from fun heq => hk (heq ▸ hm))]
      · rw [if_neg (by rw [hf n0]; exact h0), if_neg h0]
        congr 1
        apply List.map_congr_left
        intro m hm
        rw [if_neg (show ¬(m = k) from fun heq => hk (heq ▸ hm))]

theorem parse_foldl_map (names : List String) (hnd : names.Nodup) :
    ∀ (outer : List OuterEntry) (f : String → LayerInformation),
      (∀ n, (f n).name = n) →
      outer.foldl (parseStep names) (names.map f) =
        names.map (fun n => parseOneName n (f n) outer) := by
  intro outer
  induction outer with
  | nil =>
    intro f hf
    simp [parseOneName]
  | cons e rest ih =>
    intro f hf
    rw [List.foldl_cons]
    have hstep : parseStep names (names.map f) e =
        names.map (fun n =>
          if e.type = TarKind.file ∧ e.fileName = n then
            { f n with
              entries := (f n).entries ++ keptEntries e.fileName e.nested
              loaded := true }
          else f n) := by
      unfold parseStep
      by_cases hc : e.type = TarKind.file ∧ strMem names e.fileName
      · rw [if_pos hc, updateLastNamed_map f hf _ e.fileName names hnd]
        apply List.map_congr_left
        intro n hn
        by_cases hne : n = e.fileName
        · simp [hne, hc.1]
        · rw [if_neg hne, if_neg (fun hcon => hne hcon.2.symm)]
      · rw [if_neg hc]
        symm
        apply List.map_congr_left
        intro n hn
        rw [if_neg]
        rintro ⟨h1, h2⟩
        exact hc ⟨h1, h2 ▸ (strMem_iff names n).mpr hn⟩
    rw [hstep, ih (fun n =>
      if e.type = TarKind.file ∧ e.fileName = n then
        { f n with
          entries := (f n).entries ++ keptEntries e.fileName e.nested
          loaded := true }
      else f n)
      (fun n => by
        by_cases hc2 : e.type = TarKind.file ∧ e.fileName = n <;> simp [hc2, hf n])]
    apply List.map_congr_left
    intro n hn
    rfl

theorem parseOneName_spec (n : String) :
    ∀ (outer : List OuterEntry) (es : List LayerEntry) (b : Bool),
      parseOneName n ⟨n, es, b⟩ outer =
        ⟨n, es ++ collectEntries n outer, b || observesLayer outer n⟩ := by
  intro outer
  induction outer with
  | nil =>
    intro es b
    simp [parseOneName, collectEntries, observesLayer]
  | cons e rest ih =>
    intro es b
    by_cases hc : e.type = TarKind.file ∧ e.fileName = n
    · have h1 : parseOneName n ⟨n, es, b⟩ (e :: rest) =
          parseOneName n ⟨n, es ++ keptEntries e.fileName e.nested, true⟩ rest := by
        simp only [parseOneName]
        rw [if_pos hc]
      have h2 : collectEntries n (e :: rest) =
          keptEntries e.fileName e.nested ++ collectEntries n rest := by
        rw [collectEntries, if_pos hc]
      have h3 : observesLayer (e :: rest) n = true := by
        simp [observesLayer, List.any_cons, hc]
      rw [h1, ih, h2, h3]
      simp [List.append_assoc]
    · have h1 : parseOneName n ⟨n, es, b⟩ (e :: rest) = parseOneName n ⟨n, es, b⟩ rest := by
        simp only [parseOneName]
        rw [if_neg hc]
      have h2 : collectEntries n (e :: rest) = collectEntries n rest := by
        rw [collectEntries, if_neg hc]
      have h3 : observesLayer (e :: rest) n = observesLayer rest n := by
        simp [observesLayer, List.any_cons, hc]
      rw [h1, ih, h2, h3]

theorem parse_characterization (outer : List OuterEntry) (names : List String)
    (hnd : names.Nodup) :
    outer.foldl (parseStep names) (names.map initInfo) =
      names.map (fun n =>
        ⟨n, collectEntries n outer, observesLayer outer n⟩) := by
  rw [parse_foldl_map names hnd outer initInfo (fun n => rfl)]
  apply List.map_congr_left
  intro n _
  have h := parseOneName_spec n outer [] false
  simpa [initInfo] using h

/-- C8 refutation: with requested layer names `["a", "a"]` and an outer
archive containing a file-kind entry named `a`, every requested name is
observed during the scan, yet parsing fails with the missing-layer
error (the duplicated name's catalogs alias one name-map slot, so the
first one's `loaded` flag stays false).  "Fails exactly when some
requested layer name was never observed" therefore does not hold as
stated. -/
theorem c8_counterexample :
    (parseLayerFiles [⟨"a", TarKind.file, [], RawManifest.nonList⟩] ["a", "a"] =
      Except.error ToolError.layersNotFound) ∧
    (observesLayer [⟨"a", TarKind.file, [], RawManifest.nonList⟩] "a" = true) := by
  decide

/-- C8 amended: parsing fails with the missing-layer error exactly when
some catalog's `loaded` flag remains false, which for duplicate-free
requested names is exactly when some requested name is never observed
as a file-kind outer entry; on success each catalog collects precisely
the file/directory/symlink-kind nested entries of its layer archives
(in scan order), and nested entries of any other kind contribute
nothing. -/
theorem c8_amended (outer : List OuterEntry) (names : List String) (hnd : names.Nodup) :
    (parseLayerFiles outer names = Except.error ToolError.layersNotFound ↔
      ∃ n ∈ names, observesLayer outer n = false) ∧
    (∀ rs, parseLayerFiles outer names = Except.ok rs →
      rs = names.map (fun n => ⟨n, collectEntries n outer, true⟩)) ∧
    (∀ n, observesLayer outer n = false ↔
      ∀ e ∈ outer, ¬(e.type = TarKind.file ∧ e.fileName = n)) ∧
    (∀ n le, le ∈ collectEntries n outer →
      ∃ e ∈ outer, e.type = TarKind.file ∧ e.fileName = n ∧
        ∃ ne ∈ e.nested, ∃ t, tarKindToLType ne.type = some t ∧
          le = mkLayerEntry e.fileName t ne.fileName ne.fileSize) ∧
    (∀ layerName ne rest2, tarKindToLType ne.type = none →
      keptEntries layerName (ne :: rest2) = keptEntries layerName rest2) := by
  have hchar := parse_characterization outer names hnd
  have hany_iff :
      ((names.map (fun n =>
        (⟨n, collectEntries n outer, observesLayer outer n⟩ : LayerInformation))).any
          (fun info => !info.loaded) = true) ↔
        ∃ n ∈ names, observesLayer outer n = false := by
    rw [List.any_eq_true]
    constructor
    · rintro ⟨info, hinfo, hbool⟩
      obtain ⟨n, hn, rfl⟩ := List.mem_map.mp hinfo
      exact ⟨n, hn, by simpa using hbool⟩
    · rintro ⟨n, hn, hobs⟩
      exact ⟨_, List.mem_map_of_mem _ hn, by simp [hobs]⟩
  refine ⟨?_, ?_, ?_, ?_, ?_⟩
  · unfold parseLayerFiles
    rw [hchar, ← hany_iff]
    by_cases h : ((names.map (fun n =>
        (⟨n, collectEntries n outer, observesLayer outer n⟩ : LayerInformation))).any
          (fun info => !info.loaded) = true)
    · simp [h]
    · simp [h]
  · intro rs hrs
    unfold parseLayerFiles at hrs
    rw [hchar] at hrs
    by_cases h : ((names.map (fun n =>
        (⟨n, collectEntries n outer, observesLayer outer n⟩ : LayerInformation))).any
          (fun info => !info.loaded) = true)
    · rw [if_pos h] at hrs
      exact absurd hrs (by simp)
    · rw [if_neg h] at hrs
      have hrs2 := (Except.ok.injEq _ _).mp hrs
      rw [← hrs2]
      apply List.map_congr_left
      intro n hn
      have hobs : observesLayer outer n = true := by
        by_contra hfalse
        exact h (hany_iff.mpr ⟨n, hn, Bool.not_eq_true _ ▸ hfalse⟩)
      rw [hobs]
  · intro n
    simp [observesLayer]
  · intro n le h
    exact collectEntries_mem n outer le h
  · intro layerName ne rest2 hnone
    rw [keptEntries, hnone]

/-- Closed instance of `c8_amended`: for the duplicate-free request
`["a"]` over an archive holding a file-kind entry `a`, the
failure-characterization equivalence holds. -/
theorem c8_amended_witness :
    ((["a"] : List String).Nodup) ∧
    (parseLayerFiles [⟨"a", TarKind.file, [], RawManifest.nonList⟩] ["a"] =
        Except.error ToolError.layersNotFound ↔
      ∃ n ∈ (["a"] : List String),
        observesLayer [⟨"a", TarKind.file, [], RawManifest.nonList⟩] n = false) :=
  ⟨by decide,
    (c8_amended [⟨"a", TarKind.file, [], RawManifest.nonList⟩] ["a"] (by simp)).1⟩

/-! ## Claim C10 -/

theorem updateLastNamed_preserves (k : String) (g : LayerInformation → LayerInformation) :
    ∀ (l : List LayerInformation) (x : LayerInformation), x ∈ l → x.name ≠ k →
      x ∈ updateLastNamed k g l := by
  intro l
  induction l with
  | nil => intro x hx _; cases hx
  | cons y ys ih =>
    intro x hx hxk
    unfold updateLastNamed
    by_cases h1 : ys.any (fun z => decide (z.name = k)) = true
    · rw [if_pos h1]
      rcases List.mem_cons.mp hx with rfl | hx2
      · exact List.mem_cons_self _ _
      · exact List.mem_cons_of_mem _ (ih x hx2 hxk)
    · rw [if_neg h1]
      by_cases h2 : y.name = k
      · rw [if_pos h2]
        rcases List.mem_cons.mp hx with rfl | hx2
        · exact absurd h2 hxk
        · exact List.mem_cons_of_mem _ hx2
      · rw [if_neg h2]
        rcases List.mem_cons.mp hx with rfl | hx2
        · exact List.mem_cons_self _ _
        · exact List.mem_cons_of_mem _ hx2

theorem parse_unloaded_invariant (names : List String) (n : String) :
    ∀ (outer : List OuterEntry) (acc : List LayerInformation),
      (∀ e ∈ outer, ¬(e.type = TarKind.file ∧ e.fileName = n)) →
      (∃ info ∈ acc, info.name = n ∧ info.loaded = false) →
      ∃ info ∈ outer.foldl (parseStep names) acc, info.name = n ∧ info.loaded = false := by
  intro outer
  induction outer with
  | nil =>
    intro acc _ hex
    simpa using hex
  | cons e rest ih =>
    intro acc h hex
    rw [List.foldl_cons]
    apply ih
    · intro e2 he2
      exact h e2 (List.mem_cons_of_mem _ he2)
    · obtain ⟨info, hinfo, hname, hload⟩ := hex
      unfold parseStep
      by_cases hc : e.type = TarKind.file ∧ strMem names e.fileName
      · rw [if_pos hc]
        have hne : e.fileName ≠ n := by
          intro heq
          exact h e (List.mem_cons_self _ _) ⟨hc.1, heq⟩
        refine ⟨info, ?_, hname, hload⟩
        exact updateLastNamed_preserves e.fileName _ acc info hinfo
          (by rw [hname]; exact fun hh => hne hh.symm)
      · rw [if_neg hc]
        exact ⟨info, hinfo, hname, hload⟩

/-- C10: the parsing pass only treats file-kind outer entries as layer
archives, so when a requested layer name occurs in the archive only as
symlink-kind outer entries, parsing fails with the missing-layer error
and the pipeline never reaches extraction — even though the extraction
pass itself does accept symlink-kind outer entries (shown by the closed
extraction run, which extracts from a symlink-kind outer entry). -/
theorem c10_pass_asymmetry (outer : List OuterEntry) (names : List String) (n : String)
    (hn : n ∈ names)
    (_hocc : ∃ e2 ∈ outer, e2.fileName = n)
    (hsym : ∀ e ∈ outer, e.fileName = n → e.type = TarKind.symlink) :
    (parseLayerFiles outer names = Except.error ToolError.layersNotFound) ∧
    (extractLayers
        [⟨"lay", TarKind.symlink, [⟨"x", TarKind.file, "", 0, 0, 5⟩], RawManifest.nonList⟩]
        "/d" [⟨"lay", [mkLayerEntry "lay" LType.file "x" 0], true⟩] =
      Except.ok [WriteAction.writeFile "/d/x" 5]) ∧
    (runPipeline "img" "/d"
        [⟨"manifest.json", TarKind.file, [],
          RawManifest.list [⟨"cfg", some ["img"], ["lay"]⟩]⟩,
         ⟨"lay", TarKind.symlink, [⟨"x", TarKind.file, "", 0, 0, 5⟩],
          RawManifest.nonList⟩] =
      Except.error ToolError.layersNotFound) := by
  refine ⟨?_, by decide, by decide⟩
  have hnofile : ∀ e ∈ outer, ¬(e.type = TarKind.file ∧ e.fileName = n) := by
    rintro e he ⟨h1, h2⟩
    have hs := hsym e he h2
    rw [h1] at hs
    cases hs
  have hinit : ∃ info ∈ names.map initInfo, info.name = n ∧ info.loaded = false :=
    ⟨initInfo n, List.mem_map_of_mem _ hn, rfl, rfl⟩
  obtain ⟨info, hmem, hname, hload⟩ :=
    parse_unloaded_invariant names n outer (names.map initInfo) hnofile hinit
  have hany : (outer.foldl (parseStep names) (names.map initInfo)).any
      (fun info => !info.loaded) = true := by
    rw [List.any_eq_true]
    exact ⟨info, hmem, by simp [hload]⟩
  unfold parseLayerFiles
  rw [if_pos hany]

/-- Closed instance of `c10_pass_asymmetry`: an archive whose only entry
named `lay` is symlink-kind makes parsing fail. -/
theorem c10_pass_asymmetry_witness :
    parseLayerFiles
      [⟨"lay", TarKind.symlink, [⟨"x", TarKind.file, "", 0, 0, 5⟩], RawManifest.nonList⟩]
      ["lay"] = Except.error ToolError.layersNotFound :=
  (c10_pass_asymmetry
    [⟨"lay", TarKind.symlink, [⟨"x", TarKind.file, "", 0, 0, 5⟩], RawManifest.nonList⟩]
    ["lay"] "lay" (by simp)
    ⟨⟨"lay", TarKind.symlink, [⟨"x", TarKind.file, "", 0, 0, 5⟩], RawManifest.nonList⟩,
      by simp, rfl⟩
    (by intro e he _; simp at he; rw [he])).1
